import Mathlib

/-!
# SonicWeb serving core — verification of spec claims

Shallow embedding of the SonicWeb static-content server's serving core:
TLS configuration resolution (`tls.go`), the server lifecycle group
(`servers.go`, package `service`), the try-file resolution middleware and
the header composer (`handler.go` / `main.go`).  Go strings are modelled as
`List Char`; effectful calls (socket binds, file reads) are modelled by
explicit oracles threaded through the definitions, and the functions return
the traces of effects they perform alongside their results.
-/

namespace SonicWeb

/-- A Go string, modelled as its sequence of characters. -/
abbrev GoStr := List Char

/-- `strings.HasPrefix(s, pre)`. -/
def startsWith (pre s : GoStr) : Bool := pre.isPrefixOf s

/-- `strings.HasSuffix(s, suf)`. -/
def endsWith (suf s : GoStr) : Bool := suf.isSuffixOf s

/-- `strings.TrimPrefix(s, pre)`: drop `pre` from the front of `s` when it is
there, otherwise return `s` unchanged. -/
def dropLead (pre s : GoStr) : GoStr :=
  if pre.isPrefixOf s then s.drop pre.length else s

/-- Go's `unicode.IsSpace` on the characters that matter for header values
(the ASCII whitespace set plus NEL and NBSP from Latin-1, as in Go's
fast path). -/
def goIsSpace (c : Char) : Bool :=
  c = ' ' || c = '\t' || c = '\n' || c = '\x0b' || c = '\x0c' || c = '\r' ||
  c = '\x85' || c = '\xa0'

/-- `strings.TrimSpace`: remove leading and trailing whitespace. -/
def goTrimSpace (s : GoStr) : GoStr :=
  (s.dropWhile goIsSpace).reverse.dropWhile goIsSpace |>.reverse

/-- The splitting loop behind `strings.SplitN(p, ":", 2)`: find the first
colon and return the parts before and after it, or `none` when there is no
colon.  `acc` holds the reversed prefix scanned so far. -/
def splitColonAux (acc : GoStr) : GoStr → Option (GoStr × GoStr)
  | [] => none
  | c :: rest =>
    if c = ':' then some (acc.reverse, rest) else splitColonAux (c :: acc) rest

/-- `strings.SplitN(p, ":", 2)` reduced to the only two shapes it can take:
`some (before, after)` at the first colon, or `none` when `p` has no colon. -/
def splitFirstColon (p : GoStr) : Option (GoStr × GoStr) :=
  splitColonAux [] p

/-- `headerParamToHeaders` (handler.go): each parameter in curl style
`"Name: value"` is split at its first colon into a (name, value) pair with
the value trimmed; a parameter without a colon becomes a pair with an empty
value.  The function is total: no parameter is rejected or dropped. -/
def headerParamToHeaders (param : List GoStr) : List (GoStr × GoStr) :=
  param.map fun p =>
    match splitFirstColon p with
    | some (k, v) => (k, goTrimSpace v)
    | none => (p, goTrimSpace [])

/-- `parseHeaderLines` (handler.go): scan the lines of a header file,
skipping empty lines and `#` comments, joining a continuation line (one
beginning with a space) onto the previous line with a newline, and trimming
every line. `acc` holds the lines emitted so far, in order. -/
def parseHeaderLinesAux (acc : List GoStr) : List GoStr → List GoStr
  | [] => acc
  | line :: rest =>
    if line.length = 0 then
      parseHeaderLinesAux acc rest
    else if startsWith ['#'] line then
      parseHeaderLinesAux acc rest
    else if startsWith [' '] line && acc.length > 0 then
      parseHeaderLinesAux
        (acc.dropLast ++ [acc.getLast! ++ ['\n'] ++ goTrimSpace line]) rest
    else
      parseHeaderLinesAux (acc ++ [goTrimSpace line]) rest

/-- `parseHeaderLines` on the full contents of one header file. -/
def parseHeaderLines (lines : List GoStr) : List GoStr :=
  parseHeaderLinesAux [] lines

/-- `headerFilesToHeaders` (handler.go) with the I/O abstracted to the list
of line lists read from each file: concatenate the parsed lines of every
file and turn them into header pairs. -/
def headerFilesToHeaders (files : List (List GoStr)) : List (GoStr × GoStr) :=
  headerParamToHeaders (files.flatMap parseHeaderLines)

/-- `ServerName` (main.go). -/
def ServerName : GoStr := "SonicWeb".toList

/-- The `Server` header value computed by `addHeaders` (handler.go):
`ServerName`, with `"/" ++ buildInfoTag` appended when the build tag is
set. -/
def serverHeaderValue (buildInfoTag : GoStr) : GoStr :=
  if buildInfoTag.length > 0 then ServerName ++ ['/'] ++ buildInfoTag
  else ServerName

/-- `addHeaders` (handler.go): the ordered header list handed to the
header-adding middleware — the `Server` identity header prepended to the
supplied headers. -/
def addHeaders (buildInfoTag : GoStr) (headers : List (GoStr × GoStr)) :
    List (GoStr × GoStr) :=
  ("Server".toList, serverHeaderValue buildInfoTag) :: headers

/-- The composed header set of `main` (main.go:410-416 feeding
handler.go:134-146): CLI-parameter headers first, then header-file headers,
behind the `Server` identity header. -/
def composeHeaders (buildInfoTag : GoStr) (cliParams : List GoStr)
    (fileContents : List (List GoStr)) : List (GoStr × GoStr) :=
  addHeaders buildInfoTag
    (headerParamToHeaders cliParams ++ headerFilesToHeaders fileContents)

/-! ## `os.Expand` (Go standard library), as used by the try-file resolver -/

/-- The opening-brace character, `Char.ofNat 123`. -/
def openBraceChar : Char := Char.ofNat 123

/-- The closing-brace character, `Char.ofNat 125`. -/
def closeBraceChar : Char := Char.ofNat 125

/-- Go's `isShellSpecialVar`: the single-character special shell variables. -/
def isShellSpecialVar (c : Char) : Bool :=
  c = '*' || c = '#' || c = '$' || c = '@' || c = '!' || c = '?' || c = '-' ||
  ('0' ≤ c && c ≤ '9')

/-- Go's `isAlphaNum`: underscore, digits and ASCII letters. -/
def isAlphaNum (c : Char) : Bool :=
  c = '_' || ('0' ≤ c && c ≤ '9') || ('a' ≤ c && c ≤ 'z') ||
  ('A' ≤ c && c ≤ 'Z')

/-- Index of the first occurrence of `c`, or `none`. -/
def findCharIdx (c : Char) : GoStr → Option Nat
  | [] => none
  | x :: rest => if x = c then some 0 else (findCharIdx c rest).map (· + 1)

/-- The brace-scanning arm of Go's `getShellName`: `rest` is the text after
the opening brace; scan for the closing brace, eating bad syntax the way the
Go loop does.  Returns the name and the number of characters consumed
(counted from the opening brace). -/
def braceScan (rest : GoStr) : GoStr × Nat :=
  match findCharIdx closeBraceChar rest with
  | none => ([], 1)
  | some 0 => ([], 2)
  | some i => (rest.take i, i + 2)

/-- Go's `getShellName`: the text after a `$` is parsed into a variable name
and the number of characters the name reference occupies. -/
def getShellName (s : GoStr) : GoStr × Nat :=
  match s with
  | [] => ([], 0)
  | c0 :: rest =>
    if c0 = openBraceChar then
      match rest with
      | c1 :: c2 :: _ =>
        if isShellSpecialVar c1 && c2 = closeBraceChar then ([c1], 3)
        else braceScan rest
      | _ => braceScan rest
    else if isShellSpecialVar c0 then ([c0], 1)
    else
      let name := (c0 :: rest).takeWhile isAlphaNum
      (name, name.length)

/-- The scanning loop of Go's `os.Expand`, made structural on a fuel
argument; the caller supplies fuel exceeding the input length, so the
fuel-exhausted case is unreachable. -/
def osExpandFuel (mapping : GoStr → GoStr) : Nat → GoStr → GoStr
  | 0, s => s
  | _ + 1, [] => []
  | fuel + 1, c :: rest =>
    if c = '$' then
      match rest with
      | [] => [c]
      | _ :: _ =>
        let nw := getShellName rest
        let emitted :=
          if nw.1.isEmpty && nw.2 > 0 then []
          else if nw.1.isEmpty then [c]
          else mapping nw.1
        emitted ++ osExpandFuel mapping fuel (rest.drop nw.2)
    else c :: osExpandFuel mapping fuel rest

/-- Go's `os.Expand(s, mapping)`: replace each `$name` / `$\x7bname\x7d`
reference by `mapping name`. -/
def osExpand (s : GoStr) (mapping : GoStr → GoStr) : GoStr :=
  osExpandFuel mapping (s.length + 1) s

/-! ## Try-file resolution middleware (`addTryFiles`, handler.go) -/

/-- The registration-time normalization of `addTryFiles`: a rule ending in
the index-document suffix `/index.html` is truncated by the length of
`index.html`, keeping the trailing separator, to prevent the serving loop
caused by the file handler's index redirect. -/
def normalizeTryFiles (tries : List GoStr) : List GoStr :=
  tries.map fun v =>
    if endsWith "/index.html".toList v then
      v.take (v.length - "index.html".toList.length)
    else v

/-- The `expandFunc` closure of the try-file handler: `uri` expands to the
request's original path, any other variable expands to the empty string
(after a warning log). -/
def tryFileMapping (reqPath : GoStr) (s : GoStr) : GoStr :=
  if s = "uri".toList then reqPath else []

/-- One iteration of the try-file loop: expand the rule against the request
path, treat an empty expansion as the root, and test existence — directly,
or, when the expanded path ends in the directory separator, through the
`index.html` index document inside it.  Returns the rewritten path on a
match and `none` otherwise.  `fsStat path = true` models
`fileSystem.Stat(path)` succeeding. -/
def tryStep (fsStat : GoStr → Bool) (reqPath rule : GoStr) : Option GoStr :=
  let path0 := osExpand rule (tryFileMapping reqPath)
  let path := if path0.length = 0 then "/".toList else path0
  if fsStat (dropLead "/".toList path) then some path
  else if endsWith "/".toList path then
    if fsStat (dropLead "/".toList path ++ "index.html".toList) then some path
    else none
  else none

/-- The try-file loop over the registered rules: returns the path the
request continues with and the list of rules that were evaluated, in
order. -/
def tryFilesEvalAux (fsStat : GoStr → Bool) (reqPath : GoStr) :
    List GoStr → GoStr × List GoStr
  | [] => (reqPath, [])
  | r :: rs =>
    match tryStep fsStat reqPath r with
    | some p => (p, [r])
    | none =>
      let q := tryFilesEvalAux fsStat reqPath rs
      (q.1, r :: q.2)

/-- `addTryFiles` (handler.go): normalize the rules at registration, then on
each request run the try-file loop and hand the (possibly rewritten) path to
the underlying handler `next` — exactly once, whether or not a rule
matched.  The second component is the evaluation trace of rules tried. -/
def addTryFiles {α : Type} (tries : List GoStr) (fsStat : GoStr → Bool)
    (next : GoStr → α) (reqPath : GoStr) : α × List GoStr :=
  let tryFiles := normalizeTryFiles tries
  let res := tryFilesEvalAux fsStat reqPath tryFiles
  (next res.1, res.2)

/-- Position of the first rule that matches under `tryStep`, or `none`. -/
def firstMatchIdx (fsStat : GoStr → Bool) (reqPath : GoStr) :
    List GoStr → Option Nat
  | [] => none
  | r :: rs =>
    if (tryStep fsStat reqPath r).isSome then some 0
    else (firstMatchIdx fsStat reqPath rs).map (· + 1)

/-! ## Server lifecycle group (`servers.go`, package `service`) -/

/-- `serverShutdownTimeout = 5 * time.Second`, in nanoseconds. -/
def serverShutdownTimeout : Nat := 5 * 1000000000

/-- A Go `context.Context`, reduced to the two observables the group reads:
whether `ctx.Err() != nil` (cancellation) and the remaining deadline. -/
structure GoContext where
  cancelled : Bool
  deadline : Option Nat
deriving DecidableEq, Repr

/-- `context.WithoutCancel(ctx)`: the detached copy reports no cancellation
and no deadline, whatever the parent carries. -/
def contextWithoutCancel (_ : GoContext) : GoContext := ⟨false, none⟩

/-- `context.WithTimeout(parent, d)`: the child carries the parent's
cancellation and the smaller of the parent's deadline and `d`. -/
def contextWithTimeout (parent : GoContext) (d : Nat) : GoContext :=
  ⟨parent.cancelled,
   some (match parent.deadline with | none => d | some d0 => min d0 d)⟩

/-- An `*http.Server`, reduced to the field the group reads before serving:
its configured listen address. -/
structure HTTPServer where
  addr : GoStr
deriving DecidableEq, Repr

/-- A bound `net.Listener`, identified by the bind call that produced it and
the address it is bound to. -/
structure Listener where
  idx : Nat
  addr : GoStr
deriving DecidableEq, Repr

/-- The errors of the `service` package (`ErrNoServers`, `ErrNilServer`,
`ErrServerNameLenMismatch`, the context error, the bind error, and the
joined error `NewGroup` wraps). -/
inductive GroupErr where
  | noServers
  | nilServer (name : GoStr)
  | serverNameLenMismatch (a b : Nat)
  | ctxError
  | couldNotListen (name addr : GoStr)
  | groupCreate (errs : List GroupErr)

/-- `Group`: the configured state — shutdown timeout, servers and their
names.  The log sink carries no modelled state. -/
structure Group where
  shutdownTimeout : Nat
  servers : List HTTPServer
  serverNames : List GoStr

/-- The functional options accepted by `NewGroup`, defunctionalized.  A nil
`*http.Server` argument is `none`. -/
inductive GroupOption where
  | withShutdownTimeout (t : Nat)
  | withServer (server : Option HTTPServer) (name : GoStr)
  | withServersOpt (servers : List (Option HTTPServer)) (names : List GoStr)
  | withLogger

/-- Apply one option to the group under construction, as the corresponding
Go closure does: `WithServer` rejects a nil server, `WithServers` rejects a
length mismatch and any nil entry (joining those errors), the timeout and
logger options always succeed. -/
def applyOption (g : Group) : GroupOption → Except GroupErr Group
  | .withShutdownTimeout t => .ok { g with shutdownTimeout := t }
  | .withServer s name =>
    match s with
    | none => .error (.nilServer name)
    | some srv =>
      .ok { g with servers := g.servers ++ [srv],
                   serverNames := g.serverNames ++ [name] }
  | .withServersOpt ss names =>
    if ss.length ≠ names.length then
      .error (.serverNameLenMismatch ss.length names.length)
    else
      let nilErrs := (ss.zip names).filterMap fun p =>
        if p.1.isNone then some (GroupErr.nilServer p.2) else none
      if nilErrs.isEmpty then
        .ok { g with servers := g.servers ++ ss.reduceOption,
                     serverNames := g.serverNames ++ names }
      else .error (.groupCreate nilErrs)
  | .withLogger => .ok g

/-- The option-application loop of `NewGroup`: a failing option leaves the
group untouched and its error is collected; later options are still
applied. -/
def applyOptionAcc (st : Group × List GroupErr) (o : GroupOption) :
    Group × List GroupErr :=
  match applyOption st.1 o with
  | .ok g2 => (g2, st.2)
  | .error e => (st.1, st.2 ++ [e])

/-- `NewGroup`: start from the default shutdown timeout, apply every option
collecting errors, and fail with the joined errors when any option
failed. -/
def NewGroup (options : List GroupOption) : Except GroupErr Group :=
  let res := options.foldl applyOptionAcc (⟨serverShutdownTimeout, [], []⟩, [])
  if res.2.isEmpty then .ok res.1 else .error (.groupCreate res.2)

/-- `Except` success as a Boolean. -/
def exceptOk {ε α : Type} : Except ε α → Bool
  | .ok _ => true
  | .error _ => false

/-- The effective bind address: an empty `server.Addr` defaults to
`":http"`. -/
def effAddr (s : HTTPServer) : GoStr :=
  if s.addr.isEmpty then ":http".toList else s.addr

/-- The outcome of the binding phase: the bound listeners (on success) or
the bind error, together with the listeners that were closed during the
unwind. -/
structure BindOutcome where
  result : Except GroupErr (List Listener)
  closed : List Listener

/-- The binding loop of `bindListeners`: bind each server's address in
declaration order (`net idx addr = true` models a successful
`ListenConfig.Listen` call number `idx` on `addr`); on the first failure
close every listener bound so far and return the bind error. -/
def bindListenersAux (net : Nat → GoStr → Bool) (names : List GoStr) :
    List HTTPServer → Nat → List Listener → BindOutcome
  | [], _, acc => ⟨.ok acc, []⟩
  | s :: rest, idx, acc =>
    let addr := effAddr s
    if net idx addr then
      bindListenersAux net names rest (idx + 1) (acc ++ [⟨idx, addr⟩])
    else
      ⟨.error (.couldNotListen (names.getD idx []) addr), acc⟩

/-- `bindListeners` (servers.go): bind all configured servers sequentially
starting from the first. -/
def bindListeners (g : Group) (net : Nat → GoStr → Bool) : BindOutcome :=
  bindListenersAux net g.serverNames g.servers 0 []

/-- The observable outcome of `StartAll`: its return value, the listeners
closed during an unwind, the listener goroutines started (by server index),
and the number of `waitGroup.Add(1)` calls made. -/
structure StartResult where
  result : Except GroupErr Unit
  closed : List Listener
  started : List Nat
  waitGroupAdds : Nat

/-- `StartAll` (servers.go): fail fast on an already-cancelled context, an
empty server list, or a server/name count mismatch; bind every listener
synchronously; on a bind failure return the error with nothing started; on
success start one goroutine per server and return. -/
def startAll (g : Group) (ctx : GoContext) (net : Nat → GoStr → Bool) :
    StartResult :=
  if ctx.cancelled then ⟨.error .ctxError, [], [], 0⟩
  else if g.servers.length = 0 then ⟨.error .noServers, [], [], 0⟩
  else if g.servers.length ≠ g.serverNames.length then
    ⟨.error (.serverNameLenMismatch g.servers.length g.serverNames.length),
     [], [], 0⟩
  else
    match bindListeners g net with
    | ⟨.error e, closed⟩ => ⟨.error e, closed, [], 0⟩
    | ⟨.ok _, _⟩ =>
      ⟨.ok (), [], List.range g.servers.length, g.servers.length⟩

/-- `WaitAllServersShutdown` blocks on the group's `sync.WaitGroup`;
`waitGroup.Wait()` returns immediately exactly when the counter is zero,
i.e. when no listener goroutine was started. -/
def waitAllServersShutdownImmediate (r : StartResult) : Bool :=
  r.waitGroupAdds = 0

/-- Position (within the server list) of the first server whose bind fails
when binding sequentially from call index `idx`, or `none` when every bind
succeeds. -/
def firstFailPos (net : Nat → GoStr → Bool) :
    List HTTPServer → Nat → Option Nat
  | [], _ => none
  | s :: rest, idx =>
    if net idx (effAddr s) then (firstFailPos net rest (idx + 1)).map (· + 1)
    else some 0

/-- The listeners produced by successfully binding `servers` starting at
call index `idx`. -/
def listenersFor : List HTTPServer → Nat → List Listener
  | [], _ => []
  | s :: rest, idx => ⟨idx, effAddr s⟩ :: listenersFor rest (idx + 1)

/-! ## Per-listener shutdown cycle (`handleServerCycle`, servers.go) -/

/-- The observable events of one listener's lifecycle goroutine. -/
inductive CycleEvent where
  | shutdownAttempt (sctx : GoContext)
  | forceClose
  | waitForServe (bound : Nat) (timedOut : Bool)
  | serveExited (errored : Bool)
deriving DecidableEq, Repr

/-- The environment resolving the nondeterministic choices of one cycle:
which arm the first `select` takes, whether `server.Shutdown` returns an
error, whether the serve goroutine reported an error, and whether the serve
result arrives before the fixed safety timer in the second `select`. -/
structure CycleEnv where
  ctxBranch : Bool
  shutdownFails : Bool
  serveErrored : Bool
  serveWithinSafety : Bool
deriving DecidableEq, Repr

/-- `handleServerCycle` (servers.go), as the trace of events it performs.
On the cancellation arm: build the shutdown context from a detached copy of
the parent bounded by the group's shutdown timeout, attempt one graceful
shutdown, force-close if it failed, then wait for the serve goroutine's
result bounded by the fixed `serverShutdownTimeout` safety timer.  On the
serve-exit arm: record the exit.  The function is total, so the goroutine
always converges. -/
def handleServerCycle (shutdownTimeout : Nat) (ctx : GoContext)
    (env : CycleEnv) : List CycleEvent :=
  if env.ctxBranch then
    let sctx := contextWithTimeout (contextWithoutCancel ctx) shutdownTimeout
    [CycleEvent.shutdownAttempt sctx] ++
    (if env.shutdownFails then [CycleEvent.forceClose] else []) ++
    [CycleEvent.waitForServe serverShutdownTimeout (!env.serveWithinSafety)]
  else
    [CycleEvent.serveExited env.serveErrored]

/-- Recognizer for graceful-shutdown attempts in a cycle trace. -/
def isShutdownAttempt : CycleEvent → Bool
  | .shutdownAttempt _ => true
  | _ => false

/-! ## TLS configuration resolver (`tls.go`) -/

/-- An X.509 certificate/key pair as loaded by `tls.LoadX509KeyPair`,
opaque to the resolver. -/
structure Certificate where
  blob : List Nat
deriving DecidableEq, Repr

/-- The `autocert.Manager` wiring built by `createACMEConfig`: the exact
domain allow-list (`HostWhitelist`), the certificate cache directory
(`DirCache`) and the optional issuing-endpoint override (`Client`); the TOS
prompt is the constant `AcceptTOS`. -/
structure ACMEManager where
  domains : List GoStr
  cacheDir : GoStr
  endpoint : Option GoStr
deriving DecidableEq, Repr

/-- The fields of `tls.Config` that `tls.go` writes: the static certificate
list and its TLS 1.3 minimum version, the ACME manager configuration, and
the client-CA pool with its required-verification flag. -/
structure TLSConfig where
  certificates : List Certificate
  minVersionTLS13 : Bool
  acme : Option ACMEManager
  clientCAPool : Option (List (List Nat))
  requireAndVerifyClientCert : Bool
deriving DecidableEq, Repr

/-- The configuration errors of `tls.go`. -/
inductive TLSErr where
  | certKeyBothOrNone
  | certAndAcmeExclusive
  | clientCAsRequireIdentity
  | loadCert (msg : GoStr)
  | readClientCA (msg : GoStr)
deriving DecidableEq, Repr

/-- The file operations `generateTLSConfig` can perform. -/
inductive TLSOp where
  | loadKeyPair (cert key : GoStr)
  | readFile (path : GoStr)
deriving DecidableEq, Repr

/-- The filesystem oracle for the resolver: `tls.LoadX509KeyPair`,
`os.ReadFile`, and the pure lexical `filepath.Clean` applied to CA paths
before reading. -/
structure TLSOracle where
  loadKeyPair : GoStr → GoStr → Except GoStr Certificate
  readFile : GoStr → Except GoStr (List Nat)
  clean : GoStr → GoStr

/-- `validateTLSParams` (tls.go): cert and key both present or both absent;
cert/key and ACME domains mutually exclusive; client CAs only with one of
the two identity sources. -/
def validateTLSParams (cert key : GoStr) (acmeDomains clientCAs : List GoStr) :
    Option TLSErr :=
  if (!cert.isEmpty) != (!key.isEmpty) then some .certKeyBothOrNone
  else if !cert.isEmpty && !acmeDomains.isEmpty then some .certAndAcmeExclusive
  else if cert.isEmpty && acmeDomains.isEmpty && !clientCAs.isEmpty then
    some .clientCAsRequireIdentity
  else none

/-- `createCertificateConfig` (tls.go): load the pair, fail with the cause
on error, otherwise a config holding the one certificate and a TLS 1.3
minimum version.  The load operation is recorded in both cases. -/
def createCertificateConfig (o : TLSOracle) (certFile keyFile : GoStr) :
    Except TLSErr TLSConfig × List TLSOp :=
  (match o.loadKeyPair certFile keyFile with
   | .error m => .error (.loadCert m)
   | .ok c => .ok ⟨[c], true, none, none, false⟩,
   [.loadKeyPair certFile keyFile])

/-- `createACMEConfig` (tls.go): wire allow-list, cache path and optional
endpoint override into the manager's TLS configuration; no file is
touched. -/
def createACMEConfig (acmeDomains : List GoStr)
    (certCache acmeEndpoint : GoStr) : TLSConfig :=
  ⟨[], false,
   some ⟨acmeDomains, certCache,
         if acmeEndpoint.isEmpty then none else some acmeEndpoint⟩,
   none, false⟩

/-- The CA-reading loop of `configureClientCAs`: read each cleaned CA path,
failing on the first unreadable file, accumulating the pool and the reads
performed. -/
def configureClientCAsAux (o : TLSOracle) (pool : List (List Nat))
    (ops : List TLSOp) : List GoStr → Except TLSErr (List (List Nat)) × List TLSOp
  | [] => (.ok pool, ops)
  | ca :: rest =>
    let p := o.clean ca
    match o.readFile p with
    | .error m => (.error (.readClientCA m), ops ++ [.readFile p])
    | .ok bytes => configureClientCAsAux o (pool ++ [bytes]) (ops ++ [.readFile p]) rest

/-- `configureClientCAs` (tls.go): build the trust pool from every CA file
and require full client-certificate verification against it. -/
def configureClientCAs (o : TLSOracle) (config : TLSConfig)
    (clientCAs : List GoStr) : Except TLSErr TLSConfig × List TLSOp :=
  match configureClientCAsAux o [] [] clientCAs with
  | (.error e, ops) => (.error e, ops)
  | (.ok pool, ops) =>
    (.ok { config with clientCAPool := some pool,
                       requireAndVerifyClientCert := true }, ops)

/-- `generateTLSConfig` (tls.go): validate first; with neither identity
source the result is no TLS configuration; otherwise build the static or
ACME configuration and attach the client-CA pool when requested.  The
second component is the trace of file operations performed. -/
def generateTLSConfig (o : TLSOracle) (cert key : GoStr)
    (acmeDomains : List GoStr) (certCache acmeEndpoint : GoStr)
    (clientCAs : List GoStr) : Except TLSErr (Option TLSConfig) × List TLSOp :=
  match validateTLSParams cert key acmeDomains clientCAs with
  | some e => (.error e, [])
  | none =>
    if cert.isEmpty && acmeDomains.isEmpty then (.ok none, [])
    else
      let step1 : Except TLSErr (Option TLSConfig) × List TLSOp :=
        if !cert.isEmpty then
          match createCertificateConfig o cert key with
          | (.error e, ops) => (.error e, ops)
          | (.ok c, ops) => (.ok (some c), ops)
        else (.ok none, [])
      match step1 with
      | (.error e, ops) => (.error e, ops)
      | (.ok cfg0, ops1) =>
        let cfg1 := if !acmeDomains.isEmpty then
          some (createACMEConfig acmeDomains certCache acmeEndpoint) else cfg0
        match cfg1 with
        | some c =>
          if !clientCAs.isEmpty then
            match configureClientCAs o c clientCAs with
            | (.error e, ops2) => (.error e, ops1 ++ ops2)
            | (.ok c2, ops2) => (.ok (some c2), ops1 ++ ops2)
          else (.ok (some c), ops1)
        | none => (.ok none, ops1)

/-- Modelled from the spec: the header-applying middleware (the external
`midgard` `add_header` collaborator, whose code is not part of this
repository) applies the composed (name, value) pairs in list order with
standard last-write-wins header-setter semantics, so the value observed for
a name is that of the last pair carrying it. -/
def applyHeadersLastWins (hs : List (GoStr × GoStr)) (name : GoStr) :
    Option GoStr :=
  hs.foldl (fun acc p => if p.1 = name then some p.2 else acc) none

/-- The spec-side description of one CLI header parameter for comparison
with `headerParamToHeaders`: split at the first colon into name and
whitespace-trimmed value, or pair the whole string with an empty value when
it has no colon. -/
def headerPairSpec (p : GoStr) : GoStr × GoStr :=
  if ':' ∈ p then
    (p.takeWhile (· ≠ ':'), goTrimSpace ((p.dropWhile (· ≠ ':')).tail))
  else (p, [])

/-! ## Concrete fixtures used by witness theorems -/

/-- A concrete TLS oracle whose file operations all fail; the claims about
early validation never reach it. -/
def wOracle : TLSOracle :=
  ⟨fun _ _ => .error [], fun _ => .error [], fun p => p⟩

/-- A concrete two-server group. -/
def wGroup : Group :=
  ⟨serverShutdownTimeout, [⟨":8080".toList⟩, ⟨":8081".toList⟩],
   ["content".toList, "instrumentation".toList]⟩

/-- A concrete network in which only the first bind call succeeds (the
second server's address is already in use). -/
def wNet : Nat → GoStr → Bool := fun i _ => i == 0

/-- A live (uncancelled) context. -/
def wCtx : GoContext := ⟨false, none⟩

/-! ## Theorems -/

/-- Claim C6: for every input to `generateTLSConfig` with an empty certificate
path, empty key path, empty automatic-certificate-domain list and empty
client-CA list, resolution succeeds, returns no TLS configuration and
performs no file operation: plaintext mode. -/
theorem generateTLSConfig_plaintext_mode (o : TLSOracle)
    (certCache acmeEndpoint : GoStr) :
    generateTLSConfig o [] [] [] certCache acmeEndpoint [] =
      (.ok none, []) := rfl

/-- Claim C2: whenever both a static certificate/key pair and a non-empty
automatic-certificate-domain list are supplied, `generateTLSConfig` fails
with the mutual-exclusion configuration error, and its file-operation trace
is empty — no certificate is loaded from disk. -/
theorem generateTLSConfig_cert_acme_exclusive (o : TLSOracle)
    (cert key : GoStr) (acmeDomains : List GoStr)
    (certCache acmeEndpoint : GoStr) (clientCAs : List GoStr)
    (hc : cert ≠ []) (hk : key ≠ []) (ha : acmeDomains ≠ []) :
    generateTLSConfig o cert key acmeDomains certCache acmeEndpoint
      clientCAs = (.error .certAndAcmeExclusive, []) := by
  obtain ⟨c, cs, rfl⟩ := List.exists_cons_of_ne_nil hc
  obtain ⟨k0, ks, rfl⟩ := List.exists_cons_of_ne_nil hk
  obtain ⟨a0, as0, rfl⟩ := List.exists_cons_of_ne_nil ha
  rfl

/-- Witness for C2 at a concrete input. -/
theorem generateTLSConfig_cert_acme_exclusive_witness :
    generateTLSConfig wOracle "c".toList "k".toList ["d".toList] [] [] [] =
      (.error .certAndAcmeExclusive, []) :=
  generateTLSConfig_cert_acme_exclusive wOracle _ _ _ _ _ _
    (by decide) (by decide) (by decide)

/-- Claim C7: client-CA paths without either identity source (no certificate/key
pair, no automatic-certificate domains) make `generateTLSConfig` fail with
the corresponding configuration error, touching no file. -/
theorem generateTLSConfig_clientCAs_require_identity (o : TLSOracle)
    (certCache acmeEndpoint : GoStr) (clientCAs : List GoStr)
    (hcas : clientCAs ≠ []) :
    generateTLSConfig o [] [] [] certCache acmeEndpoint clientCAs =
      (.error .clientCAsRequireIdentity, []) := by
  obtain ⟨x, xs, rfl⟩ := List.exists_cons_of_ne_nil hcas
  rfl

/-- Witness for C7 at a concrete input. -/
theorem generateTLSConfig_clientCAs_require_identity_witness :
    generateTLSConfig wOracle [] [] [] [] [] ["ca.pem".toList] =
      (.error .clientCAsRequireIdentity, []) :=
  generateTLSConfig_clientCAs_require_identity wOracle [] [] _ (by decide)

/-- Claim C4: the rule list `["$uri", "/index.html"]` is normalized at
registration to `["$uri", "/"]` (index-document suffix truncated, trailing
separator kept); for a request for `/missing.js` against a root containing
only a top-level `index.html`, the `$uri` rule does not match, the `/` rule
matches through the index-document check, and the request path is rewritten
to `/`. -/
theorem addTryFiles_index_fallback_rewrites_root :
    normalizeTryFiles ["$uri".toList, "/index.html".toList] =
      ["$uri".toList, "/".toList] ∧
    tryStep (fun s => s == "index.html".toList) "/missing.js".toList
      "$uri".toList = none ∧
    tryStep (fun s => s == "index.html".toList) "/missing.js".toList
      "/".toList = some "/".toList ∧
    (fun s => s == "index.html".toList) (dropLead "/".toList "/".toList)
      = false ∧
    addTryFiles ["$uri".toList, "/index.html".toList]
      (fun s => s == "index.html".toList) (fun p => p) "/missing.js".toList =
      ("/".toList, ["$uri".toList, "/".toList]) := by decide

/-- Claim C5: whenever a listener's cycle reacts to cancellation of the shared
context, its trace contains exactly one graceful-shutdown attempt, whose
context is detached (not cancelled, even though the parent is) and carries
exactly the group's shutdown timeout as deadline (the parent's deadline
cannot truncate it); and the trace ends with a wait for the serve result
bounded by the fixed `serverShutdownTimeout` safety window.  The trace is a
total function of the environment, so the goroutine always converges. -/
theorem handleServerCycle_single_detached_shutdown (st : Nat)
    (ctx : GoContext) (env : CycleEnv) (h : env.ctxBranch = true) :
    (handleServerCycle st ctx env).filter isShutdownAttempt =
      [CycleEvent.shutdownAttempt ⟨false, some st⟩] ∧
    (handleServerCycle st ctx env).getLast? =
      some (CycleEvent.waitForServe serverShutdownTimeout
        (!env.serveWithinSafety)) := by
  cases hsf : env.shutdownFails <;>
    simp [handleServerCycle, h, hsf, isShutdownAttempt, contextWithTimeout,
      contextWithoutCancel]

/-- Witness for C5: a cancelled, nearly-expired parent context still yields
one detached shutdown attempt with the full timeout. -/
theorem handleServerCycle_single_detached_shutdown_witness :
    (handleServerCycle 7 ⟨true, some 1⟩ ⟨true, true, false, false⟩).filter
        isShutdownAttempt =
      [CycleEvent.shutdownAttempt ⟨false, some 7⟩] ∧
    (handleServerCycle 7 ⟨true, some 1⟩ ⟨true, true, false, false⟩).getLast? =
      some (CycleEvent.waitForServe serverShutdownTimeout true) :=
  handleServerCycle_single_detached_shutdown 7 ⟨true, some 1⟩
    ⟨true, true, false, false⟩ rfl

/-- Claim C9: the composed header set always begins with the `Server` identity
header, followed by the CLI-supplied and then the file-supplied headers in
declaration order; with CLI header `X-Test: a` and a header file containing
`X-Test: b`, both values are present in declaration order and the
later-declared one wins under last-write-wins header-setter semantics. -/
theorem composeHeaders_order_last_wins (buildTag : GoStr)
    (cli : List GoStr) (files : List (List GoStr)) :
    (composeHeaders buildTag cli files).head? =
      some ("Server".toList, serverHeaderValue buildTag) ∧
    (composeHeaders buildTag cli files).tail =
      headerParamToHeaders cli ++ headerFilesToHeaders files ∧
    composeHeaders [] ["X-Test: a".toList] [["X-Test: b".toList]] =
      [("Server".toList, "SonicWeb".toList),
       ("X-Test".toList, "a".toList), ("X-Test".toList, "b".toList)] ∧
    applyHeadersLastWins
      (composeHeaders [] ["X-Test: a".toList] [["X-Test: b".toList]])
      "X-Test".toList = some "b".toList :=
  ⟨rfl, rfl, by decide, by decide⟩

/-- The colon-scanning loop finds exactly the first colon: it splits the
input at the first `':'` (with the scanned prefix restored) and returns
`none` when there is none. -/
theorem splitColonAux_spec (p : GoStr) : ∀ acc : GoStr,
    splitColonAux acc p =
      if ':' ∈ p then
        some (acc.reverse ++ p.takeWhile (· ≠ ':'),
          (p.dropWhile (· ≠ ':')).tail)
      else none := by
  induction p with
  | nil => intro acc; simp [splitColonAux]
  | cons c rest ih =>
    intro acc
    by_cases hc : c = ':'
    · subst hc
      simp [splitColonAux]
    · rw [show splitColonAux acc (c :: rest) = splitColonAux (c :: acc) rest
            by simp [splitColonAux, hc]]
      rw [ih (c :: acc)]
      simp [hc, List.takeWhile_cons, List.dropWhile_cons,
        show ¬(':' = c) from fun h => hc h.symm]

/-- Claim C10: `headerParamToHeaders` never fails and never drops an entry — the
output has one pair per parameter, and each pair is the split of the
parameter at its first colon with the value whitespace-trimmed, the whole
parameter with an empty value when it has no colon. -/
theorem headerParamToHeaders_total_split (params : List GoStr) :
    (headerParamToHeaders params).length = params.length ∧
    headerParamToHeaders params = params.map headerPairSpec := by
  have hmap : ∀ p : GoStr,
      (match splitFirstColon p with
       | some (k, v) => (k, goTrimSpace v)
       | none => (p, goTrimSpace [])) = headerPairSpec p := by
    intro p
    unfold splitFirstColon headerPairSpec
    rw [splitColonAux_spec]
    by_cases h : ':' ∈ p
    · simp [h]
    · simp [h, goTrimSpace]
  constructor
  · simp [headerParamToHeaders]
  · unfold headerParamToHeaders
    exact List.map_congr_left fun p _ => hmap p

/-- The option-application loop never discards collected errors. -/
theorem foldl_applyOptionAcc_errs_ne (opts : List GroupOption) :
    ∀ st : Group × List GroupErr, st.2 ≠ [] →
      (opts.foldl applyOptionAcc st).2 ≠ [] := by
  induction opts with
  | nil => intro st h; simpa using h
  | cons o rest ih =>
    intro st h
    rw [List.foldl_cons]
    apply ih
    unfold applyOptionAcc
    cases applyOption st.1 o with
    | ok g => simpa using h
    | error e => simp

/-- Claim C8: registering a nil server (a server with no handler binding) through
`WithServer` is a configuration error — `NewGroup` fails with the joined
option errors, whatever other options surround it, instead of deferring the
failure to bind or serve time. -/
theorem newGroup_nil_server_fails (pre post : List GroupOption)
    (name : GoStr) :
    ∃ errs, NewGroup (pre ++ GroupOption.withServer none name :: post) =
      .error (.groupCreate errs) := by
  unfold NewGroup
  rw [List.foldl_append, List.foldl_cons]
  have hnil :
      (applyOptionAcc
        (pre.foldl applyOptionAcc (⟨serverShutdownTimeout, [], []⟩, []))
        (.withServer none name)).2 ≠ [] := by
    unfold applyOptionAcc applyOption
    simp
  have hfinal := foldl_applyOptionAcc_errs_ne post _ hnil
  refine ⟨(post.foldl applyOptionAcc
    (applyOptionAcc
      (pre.foldl applyOptionAcc (⟨serverShutdownTimeout, [], []⟩, []))
      (.withServer none name))).2, ?_⟩
  rw [if_neg (by simpa using hfinal)]

/-- The try-file loop agrees with the first-match specification: when no
rule matches it returns the request path unchanged having evaluated every
rule; when rule `i` is the first to match it returns that rule's rewritten
path having evaluated exactly the rules up to and including `i`. -/
theorem tryFilesEvalAux_spec (fsStat : GoStr → Bool) (reqPath : GoStr) :
    ∀ rules : List GoStr,
    (firstMatchIdx fsStat reqPath rules = none →
      tryFilesEvalAux fsStat reqPath rules = (reqPath, rules)) ∧
    (∀ i r p, firstMatchIdx fsStat reqPath rules = some i →
      rules[i]? = some r → tryStep fsStat reqPath r = some p →
      tryFilesEvalAux fsStat reqPath rules = (p, rules.take (i + 1))) := by
  intro rules
  induction rules with
  | nil =>
    refine ⟨fun _ => rfl, fun i r p hidx _ _ => ?_⟩
    simp [firstMatchIdx] at hidx
  | cons r0 rs ih =>
    cases h : tryStep fsStat reqPath r0 with
    | some p0 =>
      refine ⟨fun hnone => ?_, fun i r p hidx hr hp => ?_⟩
      · simp [firstMatchIdx, h] at hnone
      · simp [firstMatchIdx, h] at hidx
        subst hidx
        simp at hr
        subst hr
        rw [h] at hp
        injection hp with hpp
        subst hpp
        simp [tryFilesEvalAux, h]
    | none =>
      refine ⟨fun hnone => ?_, fun i r p hidx hr hp => ?_⟩
      · simp [firstMatchIdx, h, Option.map_eq_none'] at hnone
        have := ih.1 hnone
        simp [tryFilesEvalAux, h, this]
      · simp [firstMatchIdx, h, Option.map_eq_some'] at hidx
        obtain ⟨j, hj, rfl⟩ := hidx
        rw [List.getElem?_cons_succ] at hr
        have := ih.2 j r p hj hr hp
        simp [tryFilesEvalAux, h, this, List.take_succ_cons]

/-- Claim C3: for every try-file rule list and every request, the registered
(normalized) rules are evaluated in declared order and evaluation stops at
the first rule whose expanded path resolves to an existing target — the
request continues to the underlying handler with the rewritten path and no
later rule is evaluated; when no rule matches, the request path is left
unchanged and the request is still handed to the underlying handler. -/
theorem addTryFiles_first_match_wins {α : Type} (tries : List GoStr)
    (fsStat : GoStr → Bool) (next : GoStr → α) (reqPath : GoStr) :
    (firstMatchIdx fsStat reqPath (normalizeTryFiles tries) = none →
      addTryFiles tries fsStat next reqPath =
        (next reqPath, normalizeTryFiles tries)) ∧
    (∀ i r p,
      firstMatchIdx fsStat reqPath (normalizeTryFiles tries) = some i →
      (normalizeTryFiles tries)[i]? = some r →
      tryStep fsStat reqPath r = some p →
      addTryFiles tries fsStat next reqPath =
        (next p, (normalizeTryFiles tries).take (i + 1))) := by
  have hspec := tryFilesEvalAux_spec fsStat reqPath (normalizeTryFiles tries)
  refine ⟨fun hnone => ?_, fun i r p hidx hr hp => ?_⟩
  · simp only [addTryFiles]
    rw [hspec.1 hnone]
  · simp only [addTryFiles]
    rw [hspec.2 i r p hidx hr hp]

/-- Witness for C3: a single `$uri` rule matching an existing file
short-circuits with the rewritten path. -/
theorem addTryFiles_first_match_wins_witness :
    addTryFiles ["$uri".toList] (fun _ => true) (fun p : GoStr => p)
      "/a".toList =
      ((fun p : GoStr => p) "/a".toList,
        (normalizeTryFiles ["$uri".toList]).take (0 + 1)) :=
  (addTryFiles_first_match_wins ["$uri".toList] (fun _ => true)
    (fun p : GoStr => p) "/a".toList).2 0 "$uri".toList "/a".toList
    (by decide) (by decide) (by decide)

/-- The binding loop: when every bind succeeds it returns the accumulated
listeners followed by one listener per server, closing nothing; when the
bind at position `j` is the first to fail, it reports an error and the
closed listeners are exactly the accumulated ones plus those bound for the
servers before position `j` in this attempt. -/
theorem bindListenersAux_spec (net : Nat → GoStr → Bool)
    (names : List GoStr) (servers : List HTTPServer) :
    ∀ (idx : Nat) (acc : List Listener),
    (firstFailPos net servers idx = none →
      bindListenersAux net names servers idx acc =
        ⟨.ok (acc ++ listenersFor servers idx), []⟩) ∧
    (∀ j, firstFailPos net servers idx = some j →
      (bindListenersAux net names servers idx acc).closed =
        acc ++ listenersFor (servers.take j) idx ∧
      exceptOk (bindListenersAux net names servers idx acc).result =
        false) := by
  induction servers with
  | nil =>
    intro idx acc
    refine ⟨fun _ => ?_, fun j hj => ?_⟩
    · simp [bindListenersAux, listenersFor]
    · simp [firstFailPos] at hj
  | cons s rest ih =>
    intro idx acc
    by_cases hb : net idx (effAddr s)
    · refine ⟨fun hnone => ?_, fun j hj => ?_⟩
      · simp only [firstFailPos, hb, if_true, Option.map_eq_none'] at hnone
        have h2 := (ih (idx + 1) (acc ++ [⟨idx, effAddr s⟩])).1 hnone
        simp [bindListenersAux, hb, h2, listenersFor]
      · simp only [firstFailPos, hb, if_true, Option.map_eq_some'] at hj
        obtain ⟨j0, hj0, rfl⟩ := hj
        have h2 := (ih (idx + 1) (acc ++ [⟨idx, effAddr s⟩])).2 j0 hj0
        simp [bindListenersAux, hb, h2, listenersFor, List.take_succ_cons]
    · refine ⟨fun hnone => ?_, fun j hj => ?_⟩
      · simp [firstFailPos, hb] at hnone
      · simp [firstFailPos, hb] at hj
        subst hj
        simp [bindListenersAux, hb, listenersFor, exceptOk]

/-- Claim C1: group startup is atomic.  For an uncancelled context and a
well-formed non-empty group: if the bind at position `i` is the first to
fail, `StartAll` returns an error, the listeners already bound in this
attempt (those for the servers before position `i`) are exactly the ones
closed, no listener goroutine is started, and `WaitAllServersShutdown`
returns immediately since the wait-group counter is zero; if every bind
succeeds, `StartAll` succeeds, closes nothing and starts one goroutine per
configured server — all configured listeners live, or none. -/
theorem startAll_atomic (g : Group) (ctx : GoContext)
    (net : Nat → GoStr → Bool) (hctx : ctx.cancelled = false)
    (hlen : g.servers.length = g.serverNames.length)
    (hne : g.servers ≠ []) :
    (∀ i, firstFailPos net g.servers 0 = some i →
      exceptOk (startAll g ctx net).result = false ∧
      (startAll g ctx net).closed = listenersFor (g.servers.take i) 0 ∧
      (startAll g ctx net).started = [] ∧
      waitAllServersShutdownImmediate (startAll g ctx net) = true) ∧
    (firstFailPos net g.servers 0 = none →
      exceptOk (startAll g ctx net).result = true ∧
      (startAll g ctx net).closed = [] ∧
      (startAll g ctx net).started = List.range g.servers.length ∧
      (startAll g ctx net).waitGroupAdds = g.servers.length) := by
  have hlen0 : ¬g.servers.length = 0 := by
    simpa [List.length_eq_zero] using hne
  have hstart : startAll g ctx net =
      match bindListeners g net with
      | ⟨.error e, closed⟩ => ⟨.error e, closed, [], 0⟩
      | ⟨.ok _, _⟩ =>
        ⟨.ok (), [], List.range g.servers.length, g.servers.length⟩ := by
    unfold startAll
    rw [if_neg (by simp [hctx]), if_neg (by simpa using hlen0),
      if_neg (by simp [hlen])]
  have hspec := bindListenersAux_spec net g.serverNames g.servers 0 []
  constructor
  · intro i hi
    obtain ⟨hcl, hok⟩ := hspec.2 i hi
    rcases hbind : bindListenersAux net g.serverNames g.servers 0 []
      with ⟨result, closed⟩
    have hbind' : bindListeners g net = ⟨result, closed⟩ := hbind
    rw [hbind] at hcl hok
    cases result with
    | ok ls => simp [exceptOk] at hok
    | error e =>
      rw [hstart, hbind']
      simp at hcl
      simp [hcl, waitAllServersShutdownImmediate, exceptOk]
  · intro hnone
    have h2 := hspec.1 hnone
    have hbind' : bindListeners g net =
        ⟨.ok ([] ++ listenersFor g.servers 0), []⟩ := h2
    rw [hstart, hbind']
    simp [exceptOk]

/-- Witness for C1: a two-server group where the second bind fails (address
already in use) unwinds the first listener, starts nothing, and leaves the
wait-group counter at zero. -/
theorem startAll_atomic_witness :
    exceptOk (startAll wGroup wCtx wNet).result = false ∧
    (startAll wGroup wCtx wNet).closed =
      listenersFor (wGroup.servers.take 1) 0 ∧
    (startAll wGroup wCtx wNet).started = [] ∧
    waitAllServersShutdownImmediate (startAll wGroup wCtx wNet) = true :=
  (startAll_atomic wGroup wCtx wNet rfl rfl (by decide)).1 1 (by decide)

end SonicWeb
